import Mathlib

/-!
Verification of the qdrant-loader MCP server against its specification.

The Python sources are shallowly embedded:

* JSON values (`dict`/`list`/scalars travelling through the JSON-RPC layer)
  become the inductive `Json`; Python dicts become association lists
  `List (String × Json)` looked up with `jget` (first binding wins, as in
  CPython's dict semantics for the access patterns used here, where every
  dict literal has distinct keys).
* Python floats that only ever flow through arithmetic/comparisons
  (similarity scores, fusion weights) are modelled as rationals `ℚ`.
* Fallible calls (`raise`/`try`/`except`) become `Except String α`; the
  carried string is the Python exception text.
-/

namespace QdrantLoader

/-- JSON values as produced by `json.loads` on the wire. Numbers are modelled
as rationals (Python ints and floats). -/
inductive Json where
  | null
  | bool (b : Bool)
  | num (q : ℚ)
  | str (s : String)
  | arr (xs : List Json)
  | obj (kvs : List (String × Json))

/-- Python `d.get(k)` on a dict modelled as an association list:
`none` when the key is absent. -/
def jget (kvs : List (String × Json)) (k : String) : Option Json :=
  (kvs.find? (fun p => p.1 == k)).map (·.2)

/-! ## QueryProcessor._clean_query (src/search/processor.py)

`query.strip()` followed by `re.sub(r"\s+", " ", ...)`: trim whitespace at
both ends, then replace every maximal whitespace run by a single space.
Strings are processed as their character lists. The whitespace class shared
by `str.strip()` and `\s` is modelled on its ASCII part. -/

/-- Whitespace characters (ASCII part of Python's `\s` / `str.isspace()`). -/
def isWS (c : Char) : Bool :=
  c == ' ' || c == '\t' || c == '\n' || c == '\r' || c == '\x0b' || c == '\x0c'

/-- Python `str.strip()`: drop leading and trailing whitespace. -/
def pyStrip (l : List Char) : List Char :=
  ((l.dropWhile isWS).reverse.dropWhile isWS).reverse

/-- `re.sub(r"\s+", " ", ·)`: each maximal whitespace run becomes one `' '`.
The run's characters are dropped until its last one, which is emitted as a
space. -/
def wsCollapse : List Char → List Char
  | [] => []
  | [c] => [if isWS c then ' ' else c]
  | c :: d :: rest =>
    if isWS c && isWS d then wsCollapse (d :: rest)
    else (if isWS c then ' ' else c) :: wsCollapse (d :: rest)

/-- `QueryProcessor._clean_query`: strip, then collapse whitespace runs. -/
def cleanQuery (s : String) : String :=
  ⟨wsCollapse (pyStrip s.data)⟩

example : cleanQuery "  a \t\n  b  " = "a b" := by decide
example : cleanQuery "" = "" := by decide
example : cleanQuery " \t " = "" := by decide
example : cleanQuery "product requirements for API" = "product requirements for API" := by
  decide

/-! ### Idempotence of `_clean_query` -/

/-- A character list is in collapsed form: every whitespace character is a
plain space and no two adjacent characters are both whitespace. -/
def WSNorm (l : List Char) : Prop :=
  (∀ c ∈ l, isWS c = true → c = ' ') ∧
    l.Chain' (fun a b => ¬(isWS a = true ∧ isWS b = true))

theorem wsCollapse_cons_not_ws (c : Char) (t : List Char) (h : ¬ isWS c = true) :
    wsCollapse (c :: t) = c :: wsCollapse t := by
  cases t with
  | nil => simp [wsCollapse, h]
  | cons d rest => simp [wsCollapse, h]

theorem wsCollapse_wsnorm (l : List Char) : WSNorm (wsCollapse l) := by
  induction l with
  | nil => exact ⟨by simp [wsCollapse], by simp [wsCollapse]⟩
  | cons c rest ih =>
    cases rest with
    | nil =>
      refine ⟨?_, by simp [wsCollapse]⟩
      intro x hx hws
      simp [wsCollapse] at hx
      by_cases h : isWS c = true <;> simp [h] at hx <;> subst hx
      · rfl
      · exact absurd hws h
    | cons d rest' =>
      by_cases hcd : isWS c = true ∧ isWS d = true
      · have : wsCollapse (c :: d :: rest') = wsCollapse (d :: rest') := by
          simp [wsCollapse, hcd.1, hcd.2]
        rw [this]; exact ih
      · have hstep : wsCollapse (c :: d :: rest') =
            (if isWS c then ' ' else c) :: wsCollapse (d :: rest') := by
          rcases Decidable.not_and_iff_or_not.mp hcd with h | h <;>
            simp [wsCollapse, h]
        rw [hstep]
        obtain ⟨ihA, ihB⟩ := ih
        constructor
        · intro x hx hws
          rcases List.mem_cons.mp hx with rfl | hx'
          · by_cases hc : isWS c = true
            · simp [hc]
            · rw [if_neg hc] at hws ⊢
              exact absurd hws hc
          · exact ihA x hx' hws
        · rw [List.chain'_cons']
          refine ⟨?_, ihB⟩
          intro b hb
          by_cases hc : isWS c = true
          · -- head kept as ' '; but then d is not whitespace, and the tail's
            -- head is exactly d
            have hd : ¬ isWS d = true := fun hd => hcd ⟨hc, hd⟩
            rw [wsCollapse_cons_not_ws d rest' hd] at hb
            simp at hb
            subst hb
            exact fun hand => hd hand.2
          · simp [hc]

theorem wsCollapse_fix (l : List Char) (h : WSNorm l) : wsCollapse l = l := by
  induction l with
  | nil => simp [wsCollapse]
  | cons c rest ih =>
    obtain ⟨hA, hB⟩ := h
    cases rest with
    | nil =>
      by_cases hc : isWS c = true
      · have : c = ' ' := hA c (by simp) hc
        subst this; simp [wsCollapse]
      · simp [wsCollapse, hc]
    | cons d rest' =>
      have hnot : ¬(isWS c = true ∧ isWS d = true) := (List.chain'_cons.mp hB).1
      have htail : WSNorm (d :: rest') :=
        ⟨fun x hx => hA x (List.mem_cons_of_mem c hx), (List.chain'_cons.mp hB).2⟩
      have hrec : wsCollapse (d :: rest') = d :: rest' := ih htail
      have hcc : (isWS c && isWS d) = false := by
        rcases Decidable.not_and_iff_or_not.mp hnot with h | h <;> simp [h]
      by_cases hc : isWS c = true
      · have : c = ' ' := hA c (by simp) hc
        subst this
        simp [wsCollapse, hcc, hrec]
      · simp [wsCollapse, hcc, hrec, hc]

/-- A character list has no whitespace at either end. -/
def EdgeClean (l : List Char) : Prop :=
  (∀ c, l.head? = some c → ¬ isWS c = true) ∧
    (∀ c, l.getLast? = some c → ¬ isWS c = true)

theorem dropWhile_head_not (p : Char → Bool) (l : List Char) (c : Char)
    (h : (l.dropWhile p).head? = some c) : ¬ p c = true := by
  induction l with
  | nil => simp [List.dropWhile] at h
  | cons a t ih =>
    rw [List.dropWhile_cons] at h
    by_cases hp : p a = true
    · rw [if_pos hp] at h; exact ih h
    · rw [if_neg hp] at h
      simp at h; subst h; exact hp

theorem getLast?_dropWhile (p : Char → Bool) (l : List Char)
    (hne : l.dropWhile p ≠ []) : (l.dropWhile p).getLast? = l.getLast? := by
  induction l with
  | nil => simp [List.dropWhile] at hne
  | cons a t ih =>
    rw [List.dropWhile_cons]
    by_cases hp : p a = true
    · rw [List.dropWhile_cons, if_pos hp] at hne
      rw [if_pos hp, ih hne]
      cases t with
      | nil => simp [List.dropWhile] at hne
      | cons b t' => rw [List.getLast?_cons_cons]
    · rw [if_neg hp]

theorem pyStrip_edgeClean (l : List Char) : EdgeClean (pyStrip l) := by
  unfold pyStrip
  constructor
  · intro c hc
    rw [List.head?_reverse] at hc
    have hne : (List.dropWhile isWS l).reverse.dropWhile isWS ≠ [] := by
      intro h0; rw [h0] at hc; simp at hc
    rw [getLast?_dropWhile _ _ hne, List.getLast?_reverse] at hc
    exact dropWhile_head_not isWS l c hc
  · intro c hc
    rw [List.getLast?_reverse] at hc
    exact dropWhile_head_not isWS _ c hc

theorem dropWhile_fix (p : Char → Bool) (l : List Char)
    (h : ∀ c, l.head? = some c → ¬ p c = true) : l.dropWhile p = l := by
  cases l with
  | nil => rfl
  | cons a t =>
    rw [List.dropWhile_cons, if_neg (h a rfl)]

theorem pyStrip_fix (l : List Char) (h : EdgeClean l) : pyStrip l = l := by
  unfold pyStrip
  rw [dropWhile_fix isWS l h.1]
  rw [dropWhile_fix isWS l.reverse (fun c hc => h.2 c (by rwa [List.head?_reverse] at hc))]
  exact List.reverse_reverse l

theorem wsCollapse_getLast? (c : Char) (hws : ¬ isWS c = true) :
    ∀ l : List Char, l.getLast? = some c → (wsCollapse l).getLast? = some c := by
  intro l
  induction l with
  | nil => intro h; simp at h
  | cons a t ih =>
    intro h
    cases t with
    | nil =>
      simp at h; subst h
      simp [wsCollapse, if_neg hws]
    | cons d rest =>
      rw [List.getLast?_cons_cons] at h
      have ihL : (wsCollapse (d :: rest)).getLast? = some c := ih h
      have hLne : wsCollapse (d :: rest) ≠ [] := by
        intro h0; rw [h0] at ihL; simp at ihL
      by_cases had : isWS a = true ∧ isWS d = true
      · have : wsCollapse (a :: d :: rest) = wsCollapse (d :: rest) := by
          simp [wsCollapse, had.1, had.2]
        rw [this]; exact ihL
      · have hstep : wsCollapse (a :: d :: rest) =
            (if isWS a then ' ' else a) :: wsCollapse (d :: rest) := by
          rcases Decidable.not_and_iff_or_not.mp had with h' | h' <;> simp [wsCollapse, h']
        rw [hstep]
        cases hL : wsCollapse (d :: rest) with
        | nil => exact absurd hL hLne
        | cons b t' =>
          rw [List.getLast?_cons_cons, ← hL]
          exact ihL

theorem wsCollapse_edgeClean (l : List Char) (h : EdgeClean l) :
    EdgeClean (wsCollapse l) := by
  constructor
  · intro c hc
    cases l with
    | nil => simp [wsCollapse] at hc
    | cons a t =>
      have ha : ¬ isWS a = true := h.1 a rfl
      rw [wsCollapse_cons_not_ws a t ha] at hc
      simp at hc; subst hc; exact ha
  · intro c hc
    cases hlast : l.getLast? with
    | none =>
      have : l = [] := List.getLast?_eq_none_iff.mp hlast
      subst this; simp [wsCollapse] at hc
    | some a =>
      have ha : ¬ isWS a = true := h.2 a hlast
      rw [wsCollapse_getLast? a ha l hlast] at hc
      simp at hc; subst hc; exact ha

/-- Claim C10: `_clean_query` is idempotent — cleaning its own output
returns the same string, so re-expanding/cleaning cannot grow the query. -/
theorem cleanQuery_idem (s : String) : cleanQuery (cleanQuery s) = cleanQuery s := by
  show String.mk (wsCollapse (pyStrip (wsCollapse (pyStrip s.data)))) = _
  have hec : EdgeClean (wsCollapse (pyStrip s.data)) :=
    wsCollapse_edgeClean _ (pyStrip_edgeClean s.data)
  rw [pyStrip_fix _ hec, wsCollapse_fix _ (wsCollapse_wsnorm _)]
  rfl

/-! ## SearchEngine (src/search/engine.py)

`SearchEngine.search` calls `_get_embedding`, then `self.client.search`
(the Qdrant backend), then builds one `SearchResult` per backend record,
skipping any record whose processing raises. The two external calls are
modelled by their outcomes (`Except`), carried in `EngineEnv`; the
backend record list is whatever the Qdrant client returned for the
parameters it was passed. -/

/-- `src/search/models.py` `SearchResult` (pydantic model); `score` is a
rational standing for the Python float. -/
structure SearchResult where
  score : ℚ
  text : String
  source_type : String
  source_title : String
  source_url : Option String
  file_path : Option String
  repo_name : Option String
deriving DecidableEq

/-- A record returned by `qdrant_client`'s `search`: a score and a payload
(`result.payload` may be `None`, hence the `Option`). -/
structure QRecord where
  score : ℚ
  payload : Option (List (String × Json))

/-- Python truthiness on JSON values (`bool(x)` is `False` exactly here). -/
def pyFalsy (j : Json) : Bool :=
  match j with
  | .null => true
  | .bool b => !b
  | .num q => decide (q = 0)
  | .str s => s == ""
  | .arr xs => xs.isEmpty
  | .obj kvs => kvs.isEmpty

/-- The `x or {}` idiom: falsy values are replaced by the empty dict. -/
def pyOrEmptyObj (j : Json) : Json :=
  if pyFalsy j then .obj [] else j

/-- A JSON value acceptable for a pydantic `str` field. -/
def asStr : Json → Option String
  | .str s => some s
  | _ => none

/-- A JSON value acceptable for a pydantic `Optional[str]` field. -/
def asOptStr : Json → Option (Option String)
  | .null => some none
  | .str s => some (some s)
  | _ => none

/-- The payload-derived fields of a `SearchResult`. -/
structure PayloadFields where
  text : String
  source_type : String
  source_title : String
  source_url : Option String
  file_path : Option String
  repo_name : Option String

/-- The body of the per-record `try` block in `SearchEngine.search`:
`payload = result.payload or {}`, `metadata = payload.get("metadata", {}) or {}`,
then the dict lookups with their defaults. `none` is the modelled
exception: a truthy non-dict `metadata` has no `.get` (AttributeError),
and a field of the wrong shape fails the pydantic validation of
`SearchResult`. -/
def interpRecord (r : QRecord) : Option PayloadFields :=
  let payload := r.payload.getD []
  match pyOrEmptyObj ((jget payload "metadata").getD (.obj [])) with
  | .obj md =>
    match asStr ((jget payload "content").getD (.str "")),
        asStr ((jget payload "source_type").getD (.str "unknown")),
        asStr ((jget md "title").getD (.str "")),
        asOptStr ((jget md "url").getD .null),
        asOptStr ((jget md "file_path").getD .null),
        asOptStr ((jget md "repository_name").getD .null) with
    | some text, some st, some title, some url, some fp, some rn =>
      some ⟨text, st, title, url, fp, rn⟩
    | _, _, _, _, _, _ => none
  | _ => none

/-- One loop iteration of result processing: a `SearchResult` on success,
`none` when the record is skipped (`except` branch logs and continues). -/
def processRecord (r : QRecord) : Option SearchResult :=
  (interpRecord r).map fun f =>
    ⟨r.score, f.text, f.source_type, f.source_title, f.source_url, f.file_path, f.repo_name⟩

/-- The engine's external-world dependencies for one `search` call:
`client`/`config` are `None` until `initialize` ran; `embed` is the outcome
of `_get_embedding`; `backend` is the outcome of `self.client.search` for
the parameters the engine passed it. -/
structure EngineEnv where
  client : Option Unit
  config : Option Unit
  embed : Except String Unit
  backend : Except String (List QRecord)

/-- `SearchEngine.search`: raise when not initialized, get the embedding,
run the backend search, then process the records one by one. `sourceTypes`
is received (and logged) but never used; `limit` and the query only flow
into the two external calls whose outcomes `env` carries. -/
def searchImpl (env : EngineEnv) (_query : String) (_sourceTypes : Json)
    (_limit : Json) : Except String (List SearchResult) :=
  match env.client, env.config with
  | some _, some _ =>
    match env.embed with
    | .error e => .error e
    | .ok _ =>
      match env.backend with
      | .error e => .error e
      | .ok records => .ok (records.filterMap processRecord)
  | _, _ => .error "Search engine not initialized"

/-- Claim C1, counterexample: with a non-empty `source_types` filter of
`["git"]` supplied, a successful search still returns a record whose
`source_type` is `"jira"` — the engine applies no post-filter at all. -/
theorem searchImpl_source_filter_counterexample :
    searchImpl ⟨some (), some (), .ok (),
        .ok [⟨9/10, some [("content", .str "t"), ("source_type", .str "jira")]⟩]⟩
        "q" (.arr [.str "git"]) (.num 10)
      = .ok [⟨9/10, "t", "jira", "", none, none, none⟩]
    ∧ ("jira" ∈ ["git"] → False) :=
  ⟨rfl, by decide⟩

/-- Claim C1 (amended): `SearchEngine.search` ignores `source_types`
entirely — the outcome is independent of the supplied filter, so results
are not constrained to the filter set. -/
theorem searchImpl_ignores_source_types (env : EngineEnv) (q : String)
    (st st' lim : Json) : searchImpl env q st lim = searchImpl env q st' lim := rfl

theorem processRecord_score (r : QRecord) (res : SearchResult)
    (h : processRecord r = some res) : res.score = r.score := by
  unfold processRecord at h
  cases hi : interpRecord r with
  | none => rw [hi] at h; simp at h
  | some f =>
    rw [hi] at h
    simp at h
    rw [← h]

theorem processed_scores_sublist (rs : List QRecord) :
    ((rs.filterMap processRecord).map SearchResult.score).Sublist
      (rs.map QRecord.score) := by
  induction rs with
  | nil => simp
  | cons r t ih =>
    cases h : processRecord r with
    | none =>
      rw [List.filterMap_cons_none h, List.map_cons]
      exact ih.cons _
    | some res =>
      rw [List.filterMap_cons_some h, List.map_cons, List.map_cons,
        processRecord_score r res h]
      exact ih.cons₂ _

/-- Claim C5, counterexample: the engine does not sort — if the backend
list is not score-descending, the returned list is not either (here the
scores come back as `[1/10, 9/10]`). -/
theorem searchImpl_sorted_counterexample :
    searchImpl ⟨some (), some (), .ok (),
        .ok [⟨1/10, some []⟩, ⟨9/10, some []⟩]⟩ "q" .null (.num 10)
      = .ok [⟨1/10, "", "unknown", "", none, none, none⟩,
             ⟨9/10, "", "unknown", "", none, none, none⟩]
    ∧ ¬ (([(1 : ℚ)/10, 9/10]).Sorted (· ≥ ·)) :=
  ⟨rfl, by norm_num [List.sorted_cons]⟩

/-- Claim C5 (amended): the engine preserves the backend's order, so the
returned results are sorted by score non-increasing whenever the backend's
candidate list is (Qdrant returns hits score-descending); the engine itself
does not re-sort. -/
theorem searchImpl_sorted_of_backend_sorted (records : List QRecord)
    (hsorted : (records.map QRecord.score).Sorted (· ≥ ·))
    (q : String) (st lim : Json) :
    ∃ rs, searchImpl ⟨some (), some (), .ok (), .ok records⟩ q st lim = .ok rs
      ∧ (rs.map SearchResult.score).Sorted (· ≥ ·) :=
  ⟨records.filterMap processRecord, rfl,
    hsorted.sublist (processed_scores_sublist records)⟩

/-- Witness for `searchImpl_sorted_of_backend_sorted` at a sorted two-record
backend list. -/
theorem searchImpl_sorted_of_backend_sorted_witness :
    ∃ rs, searchImpl ⟨some (), some (), .ok (),
        .ok [⟨9/10, some []⟩, ⟨7/10, some []⟩]⟩ "q" .null (.num 10) = .ok rs
      ∧ (rs.map SearchResult.score).Sorted (· ≥ ·) :=
  searchImpl_sorted_of_backend_sorted [⟨9/10, some []⟩, ⟨7/10, some []⟩]
    (by norm_num [List.sorted_cons]) "q" .null (.num 10)

/-- Claim C8: a backend record the processing step cannot interpret is
skipped and the call still succeeds with the results built from all the
remaining records. -/
theorem searchImpl_skips_bad_record (pre post : List QRecord) (bad : QRecord)
    (hbad : processRecord bad = none) (q : String) (st lim : Json) :
    searchImpl ⟨some (), some (), .ok (), .ok (pre ++ bad :: post)⟩ q st lim
      = .ok ((pre ++ post).filterMap processRecord) := by
  show Except.ok ((pre ++ bad :: post).filterMap processRecord) = _
  rw [List.filterMap_append, List.filterMap_cons_none hbad, ← List.filterMap_append]

/-- Witness for `searchImpl_skips_bad_record`: a record whose `metadata`
payload entry is the number `5` (truthy non-dict, so `metadata.get` raises)
is dropped while the good record before it is kept. -/
theorem searchImpl_skips_bad_record_witness :
    searchImpl ⟨some (), some (), .ok (),
        .ok ([⟨8/10, some [("content", .str "ok")]⟩] ++
          (⟨1/2, some [("metadata", .num 5)]⟩ : QRecord) :: [])⟩ "q" .null (.num 10)
      = .ok (([⟨8/10, some [("content", .str "ok")]⟩] : List QRecord).filterMap
          processRecord) :=
  searchImpl_skips_bad_record [⟨8/10, some [("content", .str "ok")]⟩] []
    ⟨1/2, some [("metadata", .num 5)]⟩ rfl "q" .null (.num 10)

/-- Claim C9: assuming the backend honors the limit it was passed (it
returned at most `n` records), the engine returns at most `n` results. -/
theorem searchImpl_length_le_limit (records : List QRecord) (n : ℕ)
    (hn : records.length ≤ n) (q : String) (st : Json) :
    ∃ rs, searchImpl ⟨some (), some (), .ok (), .ok records⟩ q st (.num n) = .ok rs
      ∧ rs.length ≤ n :=
  ⟨records.filterMap processRecord, rfl,
    le_trans (List.length_filterMap_le _ _) hn⟩

/-- Witness for `searchImpl_length_le_limit` with two records and limit 2. -/
theorem searchImpl_length_le_limit_witness :
    ∃ rs, searchImpl ⟨some (), some (), .ok (),
        .ok [⟨9/10, some []⟩, ⟨7/10, some []⟩]⟩ "q" .null (.num 2) = .ok rs
      ∧ rs.length ≤ 2 :=
  searchImpl_length_le_limit [⟨9/10, some []⟩, ⟨7/10, some []⟩] 2
    (by decide) "q" .null

/-! ## QueryProcessor (src/search/processor.py)

`process_query` cleans the query, infers an intent through the OpenAI chat
API, and derives an optional source type by keyword matching. The external
classifier call is modelled by its outcome. -/

/-- `response.choices[0].message`: its `content` may be `None`. -/
structure ClassifierMessage where
  content : Option String

/-- One element of `response.choices`: `message` may be `None`. -/
structure ClassifierChoice where
  message : Option ClassifierMessage

/-- Outcome of the `chat.completions.create` call inside `_infer_intent`
(including the client-not-initialized `RuntimeError`): either the call
raised, or it returned a response with a list of choices. -/
inductive ClassifierOutcome where
  | raised (e : String)
  | returned (choices : List ClassifierChoice)

/-- Python `str.lower()` (ASCII part). -/
def pyLower (s : String) : String :=
  ⟨s.data.map Char.toLower⟩

/-- Python `s.strip().lower()`. -/
def stripLower (s : String) : String :=
  pyLower ⟨pyStrip s.data⟩

/-- `QueryProcessor._infer_intent`: any exception is caught and mapped to
`"general"`; an empty `choices`, a `None` message or a falsy (`None` or
empty) content also yield `"general"`; otherwise the stripped, lowercased
content is returned. -/
def inferIntent (o : ClassifierOutcome) : String :=
  match o with
  | .raised _ => "general"
  | .returned [] => "general"
  | .returned (c :: _) =>
    match c.message with
    | none => "general"
    | some m =>
      match m.content with
      | none => "general"
      | some s => if s = "" then "general" else stripLower s

/-- The failure modes of the external classifier named by the spec: the
call raised, no choices, missing message, or empty content. -/
def classifierFailed (o : ClassifierOutcome) : Prop :=
  match o with
  | .raised _ => True
  | .returned [] => True
  | .returned (c :: _) =>
    c.message = none ∨
      ∃ m, c.message = some m ∧ (m.content = none ∨ m.content = some "")

/-- Claim C7: intent classification never raises past its own boundary —
`inferIntent` is a total function, and on every failure of the external
classifier it returns the category `"general"`. -/
theorem inferIntent_failure_general (o : ClassifierOutcome)
    (h : classifierFailed o) : inferIntent o = "general" := by
  match o with
  | .raised _ => rfl
  | .returned [] => rfl
  | .returned (c :: rest) =>
    unfold classifierFailed at h
    rcases h with hm | ⟨m, hm, hc⟩
    · simp [inferIntent, hm]
    · rcases hc with hc | hc <;> simp [inferIntent, hm, hc]

/-- Witness for `inferIntent_failure_general` at a raised classifier call. -/
theorem inferIntent_failure_general_witness :
    inferIntent (.raised "timeout") = "general" :=
  inferIntent_failure_general (.raised "timeout") trivial

/-- `needle` matches at the head of the haystack (prefix comparison used by
the substring test). -/
def leadEq : List Char → List Char → Bool
  | _, [] => true
  | [], _ :: _ => false
  | h :: hs, n :: ns => h == n && leadEq hs ns

/-- Python `needle in hay` on strings, as character lists. -/
def containsSub (needle : List Char) : List Char → Bool
  | [] => needle.isEmpty
  | c :: t => leadEq (c :: t) needle || containsSub needle t

/-- Python `needle in hay` for strings. -/
def strIn (needle hay : String) : Bool :=
  containsSub needle.data hay.data

/-- The `source_keywords` dict of `_extract_source_type`, in insertion
order. -/
def sourceKeywords : List (String × List String) :=
  [("git", ["git", "code", "repository", "repo"]),
   ("confluence", ["confluence", "doc", "documentation", "wiki"]),
   ("jira", ["jira", "issue", "ticket", "bug"])]

/-- `QueryProcessor._extract_source_type`: first source type one of whose
keywords occurs in the lowercased query; `intent` is received but unused in
the source. -/
def extractSourceType (query : String) (_intent : String) : Option String :=
  let ql := pyLower query
  (sourceKeywords.find? (fun p => p.2.any (fun kw => strIn kw ql))).map (·.1)

/-- `QueryProcessor.process_query`, yielding the fields of the returned
dict that the callers read: cleaned query, intent, source type. A non-string
query raises inside `_clean_query` (`strip` is not defined on it) and
`process_query` re-raises it as `RuntimeError("Query processing failed: ...")`. -/
def processQueryModel (cls : ClassifierOutcome) (q : Json) :
    Except String (String × String × Option String) :=
  match q with
  | .str s =>
    let cleaned := cleanQuery s
    let intent := inferIntent cls
    .ok (cleaned, intent, extractSourceType cleaned intent)
  | _ => .error "Query processing failed: object has no attribute strip"

/-! ## MCPProtocol (src/mcp/protocol.py) -/

/-- `MCPProtocol.validate_request`: all four JSON-RPC fields present. -/
def validateRequest (kvs : List (String × Json)) : Bool :=
  (["jsonrpc", "method", "params", "id"]).all (fun f => (jget kvs f).isSome)

/-- `MCPProtocol.create_response`: `jsonrpc`/`id` plus either the error
(when not None) or the result (which may itself be None, i.e. null). -/
def createResponse (rid : Json) (result : Option Json) (err : Option Json) :
    List (String × Json) :=
  match err with
  | some e => [("jsonrpc", .str "2.0"), ("id", rid), ("error", e)]
  | none => [("jsonrpc", .str "2.0"), ("id", rid), ("result", result.getD .null)]

/-- A JSON-RPC error object with `code`, `message` and `data` members. -/
def mkError (code : Int) (msg data : String) : Json :=
  .obj [("code", .num (code : ℚ)), ("message", .str msg), ("data", .str data)]

/-! ## MCPHandler (src/mcp/handler.py) -/

/-- A single-quote character, used when rendering Python exception texts. -/
def sq : String := String.singleton (Char.ofNat 39)

/-- The text of the `AttributeError` raised by
`self.protocol.mark_initialized()`: `MCPProtocol` (src/mcp/protocol.py)
defines no such method. -/
def attrErrText : String :=
  sq ++ "MCPProtocol" ++ sq ++ " object has no attribute " ++ sq ++
    "mark_initialized" ++ sq

/-- The `self.protocol.mark_initialized()` call in `handle_request`:
the attribute lookup raises `AttributeError`. -/
def markInitCall : Except String Unit := .error attrErrText

/-- External-world dependencies of one `MCPHandler` call. -/
structure HandlerEnv where
  engine : EngineEnv
  classifier : ClassifierOutcome

/-- The result payload built by `MCPHandler._handle_initialize`. -/
def initResultJson : Json :=
  .obj [("protocolVersion", .str "2024-11-05"),
        ("serverInfo", .obj [("name", .str "Qdrant Loader MCP Server"),
                             ("version", .str "1.0.0")]),
        ("capabilities", .obj [
          ("tools", .obj [("enabled", .bool true),
                          ("supported", .arr [.str "search"])]),
          ("prompts", .obj [("enabled", .bool false)]),
          ("resources", .obj [("enabled", .bool true)]),
          ("logging", .obj [("enabled", .bool false)]),
          ("roots", .obj [("listChanged", .bool false)])])]

/-- `MCPHandler._handle_initialize`. -/
def handleInitResponse (rid : Json) (_params : Json) : List (String × Json) :=
  createResponse rid (some initResultJson) none

/-- The `search_tool` literal of `MCPHandler._handle_list_offerings`. -/
def searchToolJson : Json :=
  .obj [("name", .str "search"),
        ("description", .str "Perform semantic search across multiple data sources"),
        ("inputSchema", .obj [
          ("type", .str "object"),
          ("properties", .obj [
            ("query", .obj [
              ("type", .str "string"),
              ("description", .str "The search query in natural language")]),
            ("source_types", .obj [
              ("type", .str "array"),
              ("items", .obj [
                ("type", .str "string"),
                ("enum", .arr [.str "git", .str "confluence", .str "jira",
                  .str "documentation"])]),
              ("description", .str "Optional list of source types to filter results")]),
            ("limit", .obj [
              ("type", .str "integer"),
              ("description", .str "Maximum number of results to return"),
              ("default", .num 5)])]),
          ("required", .arr [.str "query"])])]

/-- `MCPHandler._handle_list_offerings`: the `tools/list` shape or the full
offerings shape, depending on the requesting method. -/
def handleOfferingsResponse (rid : Json) (_params : Json) (method : String) :
    List (String × Json) :=
  if method == "tools/list" then
    createResponse rid (some (.obj [("tools", .arr [searchToolJson])])) none
  else
    createResponse rid (some (.obj [("offerings", .arr [
      .obj [("id", .str "qdrant-loader"),
            ("name", .str "Qdrant Loader"),
            ("description", .str "Load data into Qdrant vector database"),
            ("version", .str "1.0.0"),
            ("tools", .arr [searchToolJson]),
            ("resources", .arr []),
            ("resourceTemplates", .arr [])]])])) none

/-- Rendering of an optional string field in the search response. -/
def optStrJson : Option String → Json
  | none => .null
  | some s => .str s

/-- One element of the `results` array in the search response. -/
def resultJson (r : SearchResult) : Json :=
  .obj [("score", .num r.score), ("text", .str r.text),
        ("source_type", .str r.source_type),
        ("source_title", .str r.source_title),
        ("source_url", optStrJson r.source_url),
        ("file_path", optStrJson r.file_path),
        ("repo_name", optStrJson r.repo_name)]

/-- `MCPHandler._handle_search`: reject a missing `query` with `-32602`,
then run `process_query` and `SearchEngine.search` inside a `try` whose
`except` produces a `-32603` response. The `Except.error` cases model the
`TypeError`s of `"query" not in params` / `params["query"]` on non-dict
params, which escape `_handle_search` to the caller's catch-all. -/
def handleSearchModel (env : HandlerEnv) (rid : Json) (params : Json) :
    Except String (List (String × Json)) :=
  match params with
  | .obj pkvs =>
    match jget pkvs "query" with
    | none =>
      .ok (createResponse rid none (some (mkError (-32602) "Invalid params"
        "Missing required parameter: query")))
    | some queryJ =>
      let sourceTypes := (jget pkvs "source_types").getD (.arr [])
      let limitJ := (jget pkvs "limit").getD (.num 10)
      match (do
          let pq ← processQueryModel env.classifier queryJ
          searchImpl env.engine pq.1 sourceTypes limitJ :
          Except String (List SearchResult)) with
      | .ok results =>
        .ok (createResponse rid
          (some (.obj [("results", .arr (results.map resultJson))])) none)
      | .error e =>
        .ok (createResponse rid none (some (mkError (-32603) "Internal error" e)))
  | .arr xs =>
    if xs.any (fun j => match j with | .str s => s == "query" | _ => false) then
      .error "list indices must be integers or slices, not str"
    else
      .ok (createResponse rid none (some (mkError (-32602) "Invalid params"
        "Missing required parameter: query")))
  | .str s =>
    if strIn "query" s then .error "string indices must be integers"
    else
      .ok (createResponse rid none (some (mkError (-32602) "Invalid params"
        "Missing required parameter: query")))
  | _ => .error "argument is not iterable"

/-- The id salvaged for an invalid-request response: `request.get("id")`
kept only when a `str` or `int` (Python `bool` is an `int` subtype;
non-integral numbers are floats and are dropped). -/
def extractRequestId (kvs : List (String × Json)) : Json :=
  match jget kvs "id" with
  | some (.str s) => .str s
  | some (.num n) => if n.den = 1 then .num n else .null
  | some (.bool b) => .bool b
  | _ => .null

/-- The `-32600` response dict built inline by `handle_request`. -/
def invalidRequestResponse (rid : Json) : List (String × Json) :=
  createResponse rid none (some (mkError (-32600) "Invalid Request"
    "The request is not a valid JSON-RPC 2.0 request"))

/-- `str()` of the method value inside the `-32601` message text (exact for
strings, approximate elsewhere; no claim depends on it). -/
def jsonStrApprox : Json → String
  | .str s => s
  | .null => "None"
  | .bool true => "True"
  | .bool false => "False"
  | .num q => if q.den = 1 then toString q.num else toString q
  | .arr _ => "[...]"
  | .obj _ => "\x7b...\x7d"

/-- The `try:` body of `MCPHandler.handle_request`: dispatch on method. -/
def dispatchRequest (env : HandlerEnv) (rid method params : Json) :
    Except String (List (String × Json)) :=
  match method with
  | .str "initialize" => do
    let resp := handleInitResponse rid params
    let _ ← markInitCall
    pure resp
  | .str "listOfferings" => .ok (handleOfferingsResponse rid params "listOfferings")
  | .str "tools/list" => .ok (handleOfferingsResponse rid params "tools/list")
  | .str "search" => handleSearchModel env rid params
  | m =>
    .ok (createResponse rid none (some (mkError (-32601) "Method not found"
      ("Method " ++ sq ++ jsonStrApprox m ++ sq ++ " not found"))))

/-- `MCPHandler.handle_request`: non-dict requests and invalid requests get
a `-32600` response; a validated request whose `id` value is null is a
notification answered with the empty dict; otherwise the method is
dispatched and any exception becomes a `-32603` response. -/
def handleRequest (env : HandlerEnv) (req : Json) : List (String × Json) :=
  match req with
  | .obj kvs =>
    if validateRequest kvs then
      let method := (jget kvs "method").getD .null
      let params := (jget kvs "params").getD (.obj [])
      match (jget kvs "id").getD .null with
      | .null => []
      | rid =>
        match dispatchRequest env rid method params with
        | .ok resp => resp
        | .error e =>
          createResponse rid none (some (mkError (-32603) "Internal error" e))
    else invalidRequestResponse (extractRequestId kvs)
  | _ => invalidRequestResponse .null

/-- Claim C3, divergence: a request lacking an `id` member (the JSON-RPC
notification shape, and the shape the repository's own
`test_handle_notification` sends) fails `validate_request` — which demands
an `id` key — and is answered with a `-32600` error response, not with the
empty object; only a request carrying an explicit `"id": null` reaches the
notification branch and gets `{}`. -/
theorem handleRequest_notification_divergence :
    (∀ env : HandlerEnv, handleRequest env (.obj
        [("jsonrpc", .str "2.0"), ("method", .str "notify"),
         ("params", .obj [("event", .str "test")])])
      = [("jsonrpc", .str "2.0"), ("id", .null),
         ("error", mkError (-32600) "Invalid Request"
           "The request is not a valid JSON-RPC 2.0 request")])
    ∧ ([("jsonrpc", .str "2.0"), ("id", .null),
        ("error", mkError (-32600) "Invalid Request"
          "The request is not a valid JSON-RPC 2.0 request")]
        : List (String × Json)) ≠ []
    ∧ (∀ env : HandlerEnv, handleRequest env (.obj
        [("jsonrpc", .str "2.0"), ("method", .str "notify"),
         ("params", .obj [("event", .str "test")]), ("id", .null)])
      = []) :=
  ⟨fun _ => rfl, fun h => List.noConfusion h, fun _ => rfl⟩

/-- Claim C4: for every valid `initialize` request with a non-null id, the
handler answers with the `-32603` internal-error response carrying the
`AttributeError` text of the missing `mark_initialized` method — never the
success result built by `_handle_initialize`. -/
theorem handleRequest_init_internal_error (env : HandlerEnv) (p rid : Json)
    (h : rid ≠ .null) :
    handleRequest env (.obj [("jsonrpc", .str "2.0"),
        ("method", .str "initialize"), ("params", p), ("id", rid)])
      = createResponse rid none (some (mkError (-32603) "Internal error"
          attrErrText)) := by
  cases rid with
  | null => exact absurd rfl h
  | bool b => rfl
  | num q => rfl
  | str s => rfl
  | arr xs => rfl
  | obj kvs => rfl

/-- Witness for `handleRequest_init_internal_error` at id 1. -/
theorem handleRequest_init_internal_error_witness :
    handleRequest ⟨⟨some (), some (), .ok (), .ok []⟩, .raised "x"⟩
        (.obj [("jsonrpc", .str "2.0"), ("method", .str "initialize"),
          ("params", .obj []), ("id", .num 1)])
      = createResponse (.num 1) none (some (mkError (-32603) "Internal error"
          attrErrText)) :=
  handleRequest_init_internal_error ⟨⟨some (), some (), .ok (), .ok []⟩, .raised "x"⟩
    (.obj []) (.num 1) (fun h => Json.noConfusion h)

/-- Claim C6, counterexample: a present but malformed (non-string) `query`
is not rejected with `-32602`; its processing failure surfaces as a
`-32603` internal error. -/
theorem handleSearch_malformed_query_counterexample :
    handleSearchModel ⟨⟨some (), some (), .ok (), .ok []⟩, .raised "t"⟩ (.num 1)
        (.obj [("query", .num 42)])
      = .ok (createResponse (.num 1) none (some (mkError (-32603)
          "Internal error" "Query processing failed: object has no attribute strip")))
    ∧ (-32603 : Int) ≠ -32602 :=
  ⟨rfl, by decide⟩

/-- Claim C6 (amended): a search request whose params lack the `query` key
is answered with the `-32602` invalid-params response; a present but
malformed `query` instead fails later and maps to `-32603`. -/
theorem handleSearch_missing_query (env : HandlerEnv) (rid : Json)
    (pkvs : List (String × Json)) (h : jget pkvs "query" = none) :
    handleSearchModel env rid (.obj pkvs)
      = .ok (createResponse rid none (some (mkError (-32602) "Invalid params"
          "Missing required parameter: query"))) := by
  simp only [handleSearchModel]
  rw [h]

/-- Witness for `handleSearch_missing_query` at empty params. -/
theorem handleSearch_missing_query_witness :
    handleSearchModel ⟨⟨some (), some (), .ok (), .ok []⟩, .raised "t"⟩ (.num 1)
        (.obj [])
      = .ok (createResponse (.num 1) none (some (mkError (-32602)
          "Invalid params" "Missing required parameter: query"))) :=
  handleSearch_missing_query ⟨⟨some (), some (), .ok (), .ok []⟩, .raised "t"⟩
    (.num 1) [] rfl

/-! ## ResultFusion

The hybrid search engine (`src/search/hybrid_search.py`, exercised by
`tests/unit/search/test_hybrid_search.py`) is not present in the sources;
its fusion step is modelled from the specification, §4.4. -/

/-- Modelled from the spec: a `CandidateRecord` produced by the vector
channel (`src/search/hybrid_search.py` is missing): identity, similarity
score, payload. -/
structure VecCand where
  id : String
  score : ℚ
  payload : List (String × Json)

/-- Modelled from the spec: a `CandidateRecord` produced by the lexical
channel (`src/search/hybrid_search.py` is missing). -/
structure LexCand where
  id : String
  score : ℚ
  payload : List (String × Json)

/-- Modelled from the spec: a merged record during fusion; at least one of
the channel scores is populated, and the vector+lexical rank sum is kept
for the §3 tie-break (a channel that did not return the document
contributes its list length as rank). -/
structure FusedCand where
  id : String
  vectorScore : Option ℚ
  lexicalScore : Option ℚ
  rankSum : Nat
  payload : List (String × Json)

/-- Rank of identity `d` in the lexical list (its index; the list length
when absent). -/
def lexRankOf (ls : List LexCand) (d : String) : Nat :=
  match ls.findIdx? (fun l => l.id == d) with
  | some j => j
  | none => ls.length

/-- Union of payload fields, first argument's bindings winning. -/
def payloadUnion (a b : List (String × Json)) : List (String × Json) :=
  a ++ b.filter (fun p => (jget a p.1).isNone)

/-- Modelled from the spec, §4.4 step 1: the identity-keyed merge of the
two candidate lists. Vector candidates come first (discovery order), each
merged with the lexical entry of the same identity when present; then the
lexical candidates whose identity no vector candidate carries. -/
def mergeCandidates (vs : List VecCand) (ls : List LexCand) : List FusedCand :=
  vs.enum.map (fun p =>
    match ls.find? (fun l => l.id == p.2.id) with
    | some l =>
      ⟨p.2.id, some p.2.score, some l.score, p.1 + lexRankOf ls p.2.id,
        payloadUnion p.2.payload l.payload⟩
    | none =>
      ⟨p.2.id, some p.2.score, none, p.1 + lexRankOf ls p.2.id, p.2.payload⟩)
  ++ (ls.enum.filter (fun p => !(vs.any (fun v => v.id == p.2.id)))).map
      (fun p => ⟨p.2.id, none, some p.2.score, vs.length + p.1, p.2.payload⟩)

/-- Modelled from the spec, §4.4 step 2: the combined score — both scores
present: `wV*v + wL*l`; a single channel: that channel's weight times its
score. -/
def combinedScore (wV wL : ℚ) (c : FusedCand) : ℚ :=
  match c.vectorScore, c.lexicalScore with
  | some v, some l => wV * v + wL * l
  | some v, none => wV * v
  | none, some l => wL * l
  | none, none => 0

/-- Modelled from the spec, §3/§4.4 step 3: order by combined score
descending, ties by lower rank sum (stable sorting keeps discovery order
for full ties). -/
def fuseOrder (wV wL : ℚ) (a b : FusedCand) : Prop :=
  combinedScore wV wL a > combinedScore wV wL b ∨
    (combinedScore wV wL a = combinedScore wV wL b ∧ a.rankSum ≤ b.rankSum)

instance fuseOrderDec (wV wL : ℚ) : DecidableRel (fuseOrder wV wL) := fun a b => by
  unfold fuseOrder
  infer_instance

/-- Modelled from the spec, §4.4: fusion — identity-keyed merge, then the
stable sort by combined score. -/
def fuse (wV wL : ℚ) (vs : List VecCand) (ls : List LexCand) : List FusedCand :=
  (mergeCandidates vs ls).insertionSort (fuseOrder wV wL)

theorem countP_eq_one_of_nodup_map {α : Type} (f : α → String) (d : String) :
    ∀ l : List α, (l.map f).Nodup → (∃ x ∈ l, f x = d) →
      l.countP (fun x => f x == d) = 1 := by
  intro l
  induction l with
  | nil => intro _ h; simp at h
  | cons a t ih =>
    intro hnd hex
    rw [List.map_cons, List.nodup_cons] at hnd
    by_cases ha : f a = d
    · rw [List.countP_cons_of_pos _ _ (by simp [ha])]
      have ht : t.countP (fun x => f x == d) = 0 := by
        rw [List.countP_eq_zero]
        intro y hy
        simp only [beq_iff_eq]
        intro hyd
        exact hnd.1 (ha ▸ hyd ▸ List.mem_map_of_mem f hy)
      omega
    · rw [List.countP_cons_of_neg _ _ (by simp [ha])]
      refine ih hnd.2 ?_
      rcases hex with ⟨x, hx, hxd⟩
      rcases List.mem_cons.mp hx with rfl | hx'
      · exact absurd hxd ha
      · exact ⟨x, hx', hxd⟩

theorem mem_of_mem_enum {α : Type} {l : List α} {p : ℕ × α}
    (h : p ∈ l.enum) : p.2 ∈ l := by
  have := List.mem_map_of_mem Prod.snd h
  rwa [List.enum_map_snd] at this

/-- Claim C2: an identity present in both candidate lists yields exactly
one fused record, with both channel scores populated and combined score
`wV*vectorScore + wL*lexicalScore`. -/
theorem fuse_merges_shared_identity (wV wL : ℚ) (vs : List VecCand)
    (ls : List LexCand) (d : String) (v : VecCand) (l : LexCand)
    (hvN : (vs.map VecCand.id).Nodup) (hlN : (ls.map LexCand.id).Nodup)
    (hv : v ∈ vs) (hl : l ∈ ls) (hvd : v.id = d) (hld : l.id = d) :
    (fuse wV wL vs ls).countP (fun c => c.id == d) = 1 ∧
    ∀ c ∈ fuse wV wL vs ls, c.id = d →
      combinedScore wV wL c = wV * v.score + wL * l.score := by
  have hperm : List.Perm (fuse wV wL vs ls) (mergeCandidates vs ls) :=
    List.perm_insertionSort _ _
  -- membership characterisation of the merged list at identity `d`
  have hpart2 : ∀ c ∈ (ls.enum.filter
      (fun p => !(vs.any (fun v' => v'.id == p.2.id)))).map
        (fun p => (⟨p.2.id, none, some p.2.score, vs.length + p.1, p.2.payload⟩
          : FusedCand)), c.id ≠ d := by
    intro c hc
    rcases List.mem_map.mp hc with ⟨p, hp, rfl⟩
    have hfil := (List.mem_filter.mp hp).2
    simp only [Bool.not_eq_true', List.any_eq_false] at hfil
    intro hcd
    exact absurd (beq_iff_eq.mpr (hvd.trans hcd.symm)) (hfil v hv)
  constructor
  · rw [hperm.countP_eq, mergeCandidates, List.countP_append]
    have h2 : ((ls.enum.filter
        (fun p => !(vs.any (fun v' => v'.id == p.2.id)))).map
          (fun p => (⟨p.2.id, none, some p.2.score, vs.length + p.1, p.2.payload⟩
            : FusedCand))).countP (fun c => c.id == d) = 0 := by
      rw [List.countP_eq_zero]
      intro c hc
      simpa using hpart2 c hc
    have h1 : (vs.enum.map (fun p =>
        match ls.find? (fun l' => l'.id == p.2.id) with
        | some l' =>
          (⟨p.2.id, some p.2.score, some l'.score, p.1 + lexRankOf ls p.2.id,
            payloadUnion p.2.payload l'.payload⟩ : FusedCand)
        | none =>
          ⟨p.2.id, some p.2.score, none, p.1 + lexRankOf ls p.2.id,
            p.2.payload⟩)).countP (fun c => c.id == d) = 1 := by
      rw [List.countP_map]
      have hid : ∀ p : ℕ × VecCand,
          ((fun c : FusedCand => c.id == d) ∘ (fun p =>
            match ls.find? (fun l' => l'.id == p.2.id) with
            | some l' =>
              (⟨p.2.id, some p.2.score, some l'.score, p.1 + lexRankOf ls p.2.id,
                payloadUnion p.2.payload l'.payload⟩ : FusedCand)
            | none =>
              ⟨p.2.id, some p.2.score, none, p.1 + lexRankOf ls p.2.id,
                p.2.payload⟩)) p = ((fun p : ℕ × VecCand => p.2.id == d) p) := by
        intro p
        cases hf : ls.find? (fun l' => l'.id == p.2.id) <;>
          simp [Function.comp, hf]
      rw [List.countP_congr (fun a _ => by rw [hid a])]
      have : vs.enum.countP (fun p => p.2.id == d)
          = (vs.enum.map Prod.snd).countP (fun x => x.id == d) := by
        rw [List.countP_map]; rfl
      rw [this, List.enum_map_snd]
      exact countP_eq_one_of_nodup_map VecCand.id d vs hvN ⟨v, hv, hvd⟩
    rw [h1, h2]
  · intro c hc hcd
    have hc' : c ∈ mergeCandidates vs ls := hperm.mem_iff.mp hc
    rw [mergeCandidates] at hc'
    rcases List.mem_append.mp hc' with hc1 | hc2
    · rcases List.mem_map.mp hc1 with ⟨p, hp, hpc⟩
      have hvi : p.2 ∈ vs := mem_of_mem_enum hp
      have hpid : p.2.id = d := by
        cases hfind : ls.find? (fun l' => l'.id == p.2.id) <;>
          rw [hfind] at hpc <;> rw [← hpc] at hcd <;> exact hcd
      have hveq : p.2 = v :=
        List.inj_on_of_nodup_map hvN hvi hv (hpid.trans hvd.symm)
      cases hfind : ls.find? (fun l' => l'.id == p.2.id) with
      | none =>
        exfalso
        have := List.find?_eq_none.mp hfind l hl
        rw [hld, hpid] at this
        exact this (beq_iff_eq.mpr rfl)
      | some l' =>
        have hl'mem : l' ∈ ls := List.mem_of_find?_eq_some hfind
        have hl'id : l'.id = d := by
          have := List.find?_some hfind
          rw [beq_iff_eq] at this
          exact this.trans hpid
        have hleq : l' = l :=
          List.inj_on_of_nodup_map hlN hl'mem hl (hl'id.trans hld.symm)
        rw [hfind] at hpc
        rw [← hpc, hveq, hleq]
        rfl
    · exact absurd hcd (hpart2 c hc2)

/-- Witness for `fuse_merges_shared_identity`: the spec's scenario 1 pair of
candidates with identity `"1"` and default 0.7/0.3 weights. -/
theorem fuse_merges_shared_identity_witness :
    (fuse (7/10) (3/10) [⟨"1", 8/10, []⟩] [⟨"1", 6/10, []⟩]).countP
        (fun c => c.id == "1") = 1 ∧
    ∀ c ∈ fuse (7/10) (3/10) [⟨"1", 8/10, []⟩] [⟨"1", 6/10, []⟩], c.id = "1" →
      combinedScore (7/10) (3/10) c
        = (7 : ℚ)/10 * ((8 : ℚ)/10) + (3 : ℚ)/10 * ((6 : ℚ)/10) :=
  fuse_merges_shared_identity (7/10) (3/10) [⟨"1", 8/10, []⟩] [⟨"1", 6/10, []⟩]
    "1" ⟨"1", 8/10, []⟩ ⟨"1", 6/10, []⟩ (by decide) (by decide)
    (List.mem_cons_self _ _) (List.mem_cons_self _ _) rfl rfl

end QdrantLoader
